import Mathlib

set_option maxHeartbeats 1000000

/-
Shallow embedding of the occlusion-geometry and cover-classification core of
the fvtt-token-cover module.  Definitions are translated from the JavaScript
sources; JavaScript-specific semantics (truthiness, missing properties, Set
behaviour) are modelled explicitly where the source relies on them.  External
collaborators (the percent-cover oracle, the Clipper boolean library, the
perspective projection, the host platform's polygon class) are passed in as
parameters or modelled from the spec, as noted on each definition.
-/

/-- JS value as produced by an object property read: either undefined or a
number.  Only these two cases are reached by the property reads modelled
here. -/
inductive JSVal where
  | undef : JSVal
  | num : Int → JSVal
deriving DecidableEq, Repr

/-- JS truthiness: undefined is falsy; a number is truthy unless it is zero. -/
def JSVal.truthy : JSVal → Bool
  | .undef => false
  | .num n => n != 0

/-- Key used at the skip test of coverTypesForToken (the source reads
types.length on a JS Set). -/
def lengthKey : String := "length"

/-- Reading property prop of a JS Set holding elements s: a Set exposes only
size among the properties read by the source; any other property — in
particular length — is undefined. -/
def setProp (s : List α) (prop : String) : JSVal :=
  if prop = "size" then JSVal.num s.length else JSVal.undef

/-- JS Set.add: appends the element unless it is already present.  JS Sets use
object identity for membership; the ref field of the data structures below
models object identity, so Lean structural equality coincides with it. -/
def jsAdd [DecidableEq α] (s : List α) (x : α) : List α :=
  if x ∈ s then s else s ++ [x]

/-- JS Set union: elements of the left set, then the new elements of the
right set. -/
def jsUnion [DecidableEq α] (a b : List α) : List α :=
  a ++ b.filter (fun x => x ∉ a)

/-- JS Set intersection, as an element list. -/
def jsInter [DecidableEq α] (a b : List α) : List α :=
  a.filter (fun x => x ∈ b)

/-- Data of a cover category (CoverTypeData in the source).  The ref field
models JS object identity; priority is a number or null; the percent
threshold is an exact rational standing for the JS number. -/
structure CoverTypeData where
  ref : Nat
  id : String
  percentThreshold : Rat
  icon : String
  canOverlap : Bool
  priority : Option Int
  includeWalls : Bool
  includeTokens : Bool
deriving DecidableEq, Repr

/-- Truthiness of document.priority (a JS number or null): null and 0 are
falsy, any other number is truthy. -/
def priorityTruthy : Option Int → Bool
  | none => false
  | some n => n != 0

/-- Numeric value of a priority, for the comparisons the source performs on
truthy priorities. -/
def priorVal : Option Int → Int
  | none => 0
  | some n => n

/-- CoverType#coverTypeApplies: the percent-cover oracle (an external
collaborator, here a function of this category's includeWalls/includeTokens
settings for the fixed attacker/target pair) is at least the category's
percent threshold. -/
def coverTypeApplies (pc : Bool → Bool → Rat) (t : CoverTypeData) : Bool :=
  t.percentThreshold ≤ pc t.includeWalls t.includeTokens

/-- First loop of CoverType.coverTypesForToken over the priority-ordered
list: the first component is the set built so far (the loop breaks at the
first category that applies), the second records the categories actually
tested, in order. -/
def orderedPass (applies : CoverTypeData → Bool) :
    List CoverTypeData → List CoverTypeData × List CoverTypeData
  | [] => ([], [])
  | t :: rest =>
    if applies t then ([t], [t])
    else
      let r := orderedPass applies rest
      (r.1, t :: r.2)

/-- Second loop of CoverType.coverTypesForToken over the unprioritized list.
The skip guard in the source is !type.document.canOverlap && types.length;
types is a JS Set, whose length property is undefined, hence falsy. -/
def unorderedPass (applies : CoverTypeData → Bool) (unordered : List CoverTypeData)
    (types : List CoverTypeData) : List CoverTypeData :=
  unordered.foldl (fun ts t =>
    if !t.canOverlap && (setProp ts lengthKey).truthy then ts
    else if applies t then jsAdd ts t else ts) types

/-- CoverType.coverTypesForToken (static): run the priority-ordered pass,
then the unprioritized pass over the same accumulating set. -/
def coverTypesForToken (pc : Bool → Bool → Rat)
    (ordered unordered : List CoverTypeData) : List CoverTypeData :=
  unorderedPass (coverTypeApplies pc) unordered
    (orderedPass (coverTypeApplies pc) ordered).1

/-- Mutable class-level state of CoverType: the id-keyed catalog map (as its
value list in insertion order), the private dirty flag coverTypesModified,
and the two cached derived lists. -/
structure CatalogState where
  covers : List CoverTypeData
  modified : Bool
  ordered : List CoverTypeData
  unordered : List CoverTypeData
deriving Repr

/-- CoverType.coverTypesUpdated: mark the cached ordering dirty (the source
does coverTypesModified ||= true). -/
def coverTypesUpdated (s : CatalogState) : CatalogState :=
  { s with modified := s.modified || true }

/-- Descending-priority order used by the rebuild sort (source comparator
(a, b) => b.document.priority - a.document.priority). -/
def priorGe (a b : CoverTypeData) : Prop :=
  priorVal b.priority ≤ priorVal a.priority

instance : DecidableRel priorGe := fun a b => by unfold priorGe; infer_instance

instance : IsTotal CoverTypeData priorGe :=
  ⟨fun a b => le_total (priorVal b.priority) (priorVal a.priority)⟩

instance : IsTrans CoverTypeData priorGe :=
  ⟨fun _ _ _ h1 h2 => le_trans h2 h1⟩

/-- CoverType.#updateCoverTypesOrder: fully rebuild both derived lists from
the catalog map — entries whose priority is falsy go to the unordered list,
all others to the ordered list, which is then sorted descending by priority
value — and clear the dirty flag. -/
def updateCoverTypesOrder (s : CatalogState) : CatalogState :=
  { s with
    ordered := List.insertionSort priorGe
      (s.covers.filter (fun t => priorityTruthy t.priority))
    unordered := s.covers.filter (fun t => !priorityTruthy t.priority)
    modified := false }

/-- Getter CoverType.coverTypesOrdered: rebuild if dirty, then return the
ordered list; the possibly-updated state is returned alongside. -/
def coverTypesOrdered (s : CatalogState) : List CoverTypeData × CatalogState :=
  let s1 := if s.modified then updateCoverTypesOrder s else s
  (s1.ordered, s1)

/-- Getter CoverType.coverTypesUnordered: rebuild if dirty, then return the
unordered list; the possibly-updated state is returned alongside. -/
def coverTypesUnordered (s : CatalogState) : List CoverTypeData × CatalogState :=
  let s1 := if s.modified then updateCoverTypesOrder s else s
  (s1.unordered, s1)

/-- Catalog mutations of the CoverType catalog. -/
inductive CatalogMutation where
  | add : CoverTypeData → CatalogMutation
  | update : String → CoverTypeData → CatalogMutation
  | remove : String → CatalogMutation

/-- Modelled from the spec: the id-keyed map registration and removal live in
AbstractCoverObject, which is not among the provided sources ("Stored as a
mapping from id to category"; mutations are add/update/remove).  Every
mutation path in the provided source calls coverTypesUpdated
(CoverType.update, the storage-document create/find/delete hooks), which the
model applies after the map change. -/
def applyMutation (m : CatalogMutation) (s : CatalogState) : CatalogState :=
  coverTypesUpdated <|
    match m with
    | .add t =>
      { s with covers :=
          if s.covers.any (fun u => u.id = t.id)
          then s.covers.map (fun u => if u.id = t.id then t else u)
          else s.covers ++ [t] }
    | .update i t =>
      { s with covers := s.covers.map (fun u => if u.id = i then t else u) }
    | .remove i =>
      { s with covers := s.covers.filter (fun u => u.id ≠ i) }

/-- Inner step of CoverType.minimumCoverFromAttackers for one cover type of
one attacker: non-priority types are collected into the per-attacker set,
priority types replace the running minimum when strictly smaller (the source
keeps minCoverType when minCoverType.priority > ct.priority fails). -/
def minStepInner (p : Option CoverTypeData × List CoverTypeData)
    (ct : CoverTypeData) : Option CoverTypeData × List CoverTypeData :=
  if !priorityTruthy ct.priority then (p.1, jsAdd p.2 ct)
  else
    match p.1 with
    | none => (some ct, p.2)
    | some m => if priorVal ct.priority < priorVal m.priority then (some ct, p.2) else p

/-- Per-attacker fold of CoverType.minimumCoverFromAttackers: fold this
attacker's cover types, threading the cross-attacker minimum-priority type
and building this attacker's set of non-priority types. -/
def minAttackerFold (acc : Option CoverTypeData) (coverTypes : List CoverTypeData) :
    Option CoverTypeData × List CoverTypeData :=
  coverTypes.foldl minStepInner (acc, [])

/-- CoverType.minimumCoverFromAttackers.  ctfa is the per-attacker cover-type
set (targetToken.tokencover.coverTypesFromAttacker, the cached
coverTypesForToken result for the pair).  The none result models the
unreachable branch in which the source would call union on an undefined set
(Set.NULL_SET does not exist); it cannot occur for a nonempty attacker
list. -/
def minimumCoverFromAttackers (ctfa : α → List CoverTypeData)
    (attackers : List α) : Option (List CoverTypeData) :=
  if attackers.isEmpty then some [] else
  let r := attackers.foldl
    (fun (acc : Option CoverTypeData × Option (List CoverTypeData)) atk =>
      let inner := minAttackerFold acc.1 (ctfa atk)
      (inner.1, some (match acc.2 with
        | none => inner.2
        | some o => jsInter o inner.2))) (none, none)
  match r.2 with
  | none => none
  | some o => some (jsUnion (match r.1 with | none => [] | some m => [m]) o)

/-- CoverType#removeFromToken: splice out every occurrence of this type's
icon from the token's effect list; report whether anything was removed. -/
def removeFromToken (icon : String) (effects : List String) : List String × Bool :=
  if icon ∈ effects then (effects.filter (fun e => e ≠ icon), true)
  else (effects, false)

/-- Removal loop of addToToken for a non-overlapping type: every other
non-overlapping cover type of the catalog whose icon is in the snapshot of
the effect-icon set is removed from the live effect list. -/
def removeOthersFold (others : List CoverTypeData) (snapshot effects : List String) :
    List String :=
  others.foldl (fun eff o =>
    if o.icon ∈ snapshot then (removeFromToken o.icon eff).1 else eff) effects

/-- CoverType#addToToken: nothing to do when the icon is present; an
overlapping type just appends its icon; a non-overlapping type first removes
the icons of all other non-overlapping cover types of the catalog (presence
tested against a snapshot of the effect-icon set) and then appends its
icon. -/
def addToToken (allCoverTypes : List CoverTypeData) (ct : CoverTypeData)
    (effects : List String) : List String × Bool :=
  if ct.icon ∈ effects then (effects, false)
  else if ct.canOverlap then (effects ++ [ct.icon], true)
  else
    (removeOthersFold
        (allCoverTypes.filter (fun o => o.icon ≠ ct.icon && !o.canOverlap))
        effects effects ++ [ct.icon], true)

/-- The JS Set built from the desired cover-type list
(new Set(coverTypes)). -/
def coverSet (coverTypesList : List CoverTypeData) : List CoverTypeData :=
  coverTypesList.foldl jsAdd []

/-- The JS Set of the token's current effect icons
(new Set(token.document.effects)). -/
def tokenIconSet (effects : List String) : List String :=
  effects.foldl jsAdd []

/-- The icons of the desired cover types (toKeep in the source, built by the
host platform's Set#map). -/
def keepIcons (coverTypesList : List CoverTypeData) : List String :=
  (coverSet coverTypesList).foldl (fun acc ct => jsAdd acc ct.icon) []

/-- The effect icons outside the desired icon set (toRemove in the source,
Set#difference). -/
def removeIcons (effects : List String) (coverTypesList : List CoverTypeData) :
    List String :=
  (tokenIconSet effects).filter (fun e => e ∉ keepIcons coverTypesList)

/-- The effect list after the removal splice of replaceCoverTypes (performed
only when the removal set is nonempty; the splice removes every occurrence
of each unwanted icon). -/
def strippedEffects (effects : List String) (coverTypesList : List CoverTypeData) :
    List String :=
  if !(removeIcons effects coverTypesList).isEmpty then
    effects.filter (fun e => e ∉ removeIcons effects coverTypesList)
  else effects

/-- Final loop of replaceCoverTypes: add each desired cover type in turn via
addToToken, accumulating whether any call reported a change. -/
def addAllCoverTypes (allCoverTypes coverTypes : List CoverTypeData)
    (start : List String × Bool) : List String × Bool :=
  coverTypes.foldl (fun (acc : List String × Bool) ct =>
    ((addToToken allCoverTypes ct acc.1).1,
     acc.2 || (addToToken allCoverTypes ct acc.1).2)) start

/-- CoverType.replaceCoverTypes: when the desired set is empty, clear the
whole effect list (false when it was already empty); otherwise splice out
every effect icon outside the desired icon set, then add each desired cover
type via addToToken.  Returns the updated effect list and the truthiness of
the value the source returns (res || changed, where changed is the size of
the removed set). -/
def replaceCoverTypes (allCoverTypes : List CoverTypeData) (effects : List String)
    (coverTypesList : List CoverTypeData) : List String × Bool :=
  if (coverSet coverTypesList).isEmpty then
    if effects.isEmpty then (effects, false) else ([], true)
  else
    ((addAllCoverTypes allCoverTypes (coverSet coverTypesList)
        (strippedEffects effects coverTypesList, false)).1,
     (addAllCoverTypes allCoverTypes (coverSet coverTypesList)
        (strippedEffects effects coverTypesList, false)).2
       || !(removeIcons effects coverTypesList).isEmpty)

/-- A 2D point with exact integer coordinates (standing for the JS numbers at
the inputs considered here). -/
structure Pt where
  x : Int
  y : Int
deriving DecidableEq, Repr

/-- foundry.utils.orient2dFast: the orientation determinant of a, b, c
(positive, negative or zero according to the turn direction). -/
def orient2dFast (a b c : Pt) : Int :=
  (a.y - c.y) * (b.x - c.x) - (a.x - c.x) * (b.y - c.y)

/-- ccw helper of the combiner source: the sign of the orientation
determinant (Math.sign applied to orient2dFast). -/
def ccw (a b c : Pt) : Int :=
  Int.sign (orient2dFast a b c)

/-- Polygon set produced by the boolean clipping library (ClipperPaths in the
source, a wrapper over the external Clipper library): its list of paths. -/
structure CPaths where
  paths : List (List Pt)
deriving DecidableEq, Repr

/-- A terrain wall as consumed by combineTerrainWalls: its ground-segment
endpoints A and B and its projected 2D silhouette.  Modelled from the spec:
the perspective projection producing the silhouette (PlanePoints3d /
perspectiveTransform, not among the provided sources) is external to this
development, so each wall carries its projected silhouette as data. -/
structure Wall where
  A : Pt
  B : Pt
  silh : CPaths
deriving DecidableEq, Repr

/-- Modelled from the spec: the external geometric collaborators of
combineTerrainWalls — the boolean-library intersection of two polygon sets,
the projected silhouette of a sub-wall cut at an intersection point (the
Bool selects the half keeping the wall's A endpoint), the foundry
line-line intersection (none on the parallel/degenerate failure case), and
the final union-and-clean step applied to the accumulated region. -/
structure GeomOps where
  intersectPaths : CPaths → CPaths → CPaths
  subSilh : Wall → Bool → Pt → CPaths
  lineLineIntersection : Pt → Pt → Pt → Pt → Option Pt
  combine : CPaths → CPaths

/-- Warning text logged when two crossing walls have no computable 2D
intersection point. -/
def crossWarning : String :=
  "combineTerrainWalls: walls cross but intersection not found."

/-- handleTerrainWallsCross: cut both walls at the 2D intersection point of
their ground segments, pick the front/back half of each from the viewer
orientations (the front half of wj depends only on ccwABV, the front half of
wi only on ccwCDV), and intersect each front silhouette with the other
wall's back silhouette.  When no intersection point is found the source
logs a warning and returns undefined. -/
def handleTerrainWallsCross (g : GeomOps) (wi wj : Wall) (ccwABV ccwCDV : Int) :
    Option (CPaths × CPaths) × List String :=
  match g.lineLineIntersection wi.A wi.B wj.A wj.B with
  | none => (none, [crossWarning])
  | some ix =>
    let wiA := g.subSilh wi true ix
    let wiB := g.subSilh wi false ix
    let wjC := g.subSilh wj true ix
    let wjD := g.subSilh wj false ix
    let wjFront := if ccwABV = -1 then wjD else wjC
    let wjBack := if ccwABV = -1 then wjC else wjD
    let wiFront := if ccwCDV = -1 then wiA else wiB
    let wiBack := if ccwCDV = -1 then wiB else wiA
    (some (g.intersectPaths wjFront wiBack, g.intersectPaths wiFront wjBack), [])

/-- Front/back selection of the double loop of combineTerrainWalls, from the
six orientation signs of one pair: when one segment lies entirely on one
side of the other (a T or V configuration) the pair (front wall, back wall)
is chosen by comparing the side of the far segment's endpoints with the
viewer's side; when the segments strictly cross the result is none. -/
def classifyFront (wi wj : Wall) (ccwABV ccwCDV ccwABC ccwABD ccwCDA ccwCDB : Int) :
    Option (Wall × Wall) :=
  if ccwABC = ccwABD ∨ ccwABD = 0 ∨ ccwABC = 0 then
    if (if ccwABC = 0 then ccwABD else ccwABC) = ccwABV
    then some (wj, wi) else some (wi, wj)
  else if ccwCDA = ccwCDB ∨ ccwCDA = 0 ∨ ccwCDB = 0 then
    if (if ccwCDA = 0 then ccwCDB else ccwCDA) = ccwCDV
    then some (wi, wj) else some (wj, wi)
  else none

/-- Body of the double loop of WallPoints3d.combineTerrainWalls for one
unordered pair (wi, wj): skip collinear-viewer and collinear-wall pairs;
when one segment lies entirely on one side of the other, intersect the far
silhouette with the near one and keep the result when nonempty; otherwise
the segments strictly cross and the cross handler runs.  Returns the
nonempty clipped regions contributed by this pair and any warnings. -/
def processPair (g : GeomOps) (viewerLoc : Pt) (wi wj : Wall) :
    List CPaths × List String :=
  if ccw wi.A wi.B viewerLoc = 0 then ([], [])
  else if ccw wj.A wj.B viewerLoc = 0 then ([], [])
  else if ccw wi.A wi.B wj.A = 0 ∧ ccw wi.A wi.B wj.B = 0 then ([], [])
  else
    match classifyFront wi wj (ccw wi.A wi.B viewerLoc) (ccw wj.A wj.B viewerLoc)
        (ccw wi.A wi.B wj.A) (ccw wi.A wi.B wj.B)
        (ccw wj.A wj.B wi.A) (ccw wj.A wj.B wi.B) with
    | some fb =>
      (if (g.intersectPaths fb.1.silh fb.2.silh).paths.isEmpty then []
       else [g.intersectPaths fb.1.silh fb.2.silh], [])
    | none =>
      match handleTerrainWallsCross g wi wj (ccw wi.A wi.B viewerLoc)
          (ccw wj.A wj.B viewerLoc) with
      | (none, w) => ([], w)
      | (some rp, w) =>
        ((if rp.1.paths.isEmpty then [] else [rp.1]) ++
         (if rp.2.paths.isEmpty then [] else [rp.2]), w)

/-- The unordered pairs (i, j) with i < j visited by the double loop, in
visit order. -/
def allPairs : List Wall → List (Wall × Wall)
  | [] => []
  | w :: rest => rest.map (fun w2 => (w, w2)) ++ allPairs rest

/-- Per-pair results of the double loop of combineTerrainWalls over an
explicit pair list, in visit order. -/
def pairResults (g : GeomOps) (viewerLoc : Pt) (pairs : List (Wall × Wall)) :
    List (List CPaths × List String) :=
  pairs.map (fun p => processPair g viewerLoc p.1 p.2)

/-- Paths accumulated into the combined polygon set: every nonempty clipped
region of every pair is added (ClipperPaths#add concatenates path lists). -/
def contribPaths (g : GeomOps) (viewerLoc : Pt) (pairs : List (Wall × Wall)) :
    List (List Pt) :=
  ((((pairResults g viewerLoc pairs).map (fun r => r.1)).flatten).map
    (fun c => c.paths)).flatten

/-- Accumulation step of combineTerrainWalls over an explicit pair list:
when nothing was added the result is none (the source returns null),
otherwise the accumulated set is combined and cleaned; warnings of all
pairs are collected in visit order. -/
def combineFromPairs (g : GeomOps) (viewerLoc : Pt) (pairs : List (Wall × Wall)) :
    Option CPaths × List String :=
  (if (contribPaths g viewerLoc pairs).isEmpty then none
   else some (g.combine ⟨contribPaths g viewerLoc pairs⟩),
   ((pairResults g viewerLoc pairs).map (fun r => r.2)).flatten)

/-- WallPoints3d.combineTerrainWalls: process every unordered pair of walls
and accumulate the clipped regions; null when nothing was contributed. -/
def combineTerrainWalls (g : GeomOps) (walls : List Wall) (viewerLoc : Pt) :
    Option CPaths × List String :=
  combineFromPairs g viewerLoc (allPairs walls)

/-- Value found in the ACTOR_SIZES lookup object: a numeric rank or (through
the reverse mapping) a size-name string. -/
inductive SizeVal where
  | num : Int → SizeVal
  | str : String → SizeVal
deriving DecidableEq, Repr

/-- ACTOR_SIZES after the source's reverse-mapping pass: the six pf2e size
labels map to their ranks 1..6, the numeric keys 1..6 (string keys on a JS
object) map back to the labels, and any other key reads undefined. -/
def actorSizes : String → Option SizeVal := fun k =>
  if k = "tiny" then some (SizeVal.num 1)
  else if k = "sm" then some (SizeVal.num 2)
  else if k = "med" then some (SizeVal.num 3)
  else if k = "lg" then some (SizeVal.num 4)
  else if k = "huge" then some (SizeVal.num 5)
  else if k = "grg" then some (SizeVal.num 6)
  else if k = "1" then some (SizeVal.str "tiny")
  else if k = "2" then some (SizeVal.str "sm")
  else if k = "3" then some (SizeVal.str "med")
  else if k = "4" then some (SizeVal.str "lg")
  else if k = "5" then some (SizeVal.str "huge")
  else if k = "6" then some (SizeVal.str "grg")
  else none

/-- Size value of a token's size label with the source's default applied:
ACTOR_SIZES[label] ?? ACTOR_SIZES.med. -/
def actorSizeVal (label : String) : SizeVal :=
  (actorSizes label).getD (SizeVal.num 3)

/-- JS ToNumber on the values above; none models NaN (the six size-name
strings reachable here do not convert to numbers). -/
def sizeToNumber : SizeVal → Option Int
  | SizeVal.num n => some n
  | SizeVal.str _ => none

/-- JS Math.max over possibly-NaN operands: NaN when either side is NaN. -/
def jsMax : Option Int → Option Int → Option Int
  | some a, some b => some (max a b)
  | _, _ => none

/-- JS strict greater-than on numbers: false when either side is NaN. -/
def jsGt : Option Int → Option Int → Bool
  | some a, some b => decide (b < a)
  | _, _ => false

/-- CoverTypePF2E.coverTypesForToken after the base-class call: when lesser
cover was assigned and both the standard and lesser cover categories were
found in the catalog map, scan the blocking tokens and, at the first one
whose size value compares strictly greater than
Math.max(targetSize, attackerSize) + 1, replace lesser cover by standard
cover.  standardCover/lesserCover are the results of the two id lookups
(none when absent — the lookup ids and the catalog contents live in files
outside the provided sources). -/
def pf2eCoverTypesPostProcess (standardCover lesserCover : Option CoverTypeData)
    (targetLabel attackerLabel : String) (blockingLabels : List String)
    (types : List CoverTypeData) : List CoverTypeData :=
  if types.isEmpty then types
  else
    match standardCover, lesserCover with
    | some std, some les =>
      if les ∈ types then
        let targetSize := sizeToNumber (actorSizeVal targetLabel)
        let attackerSize := sizeToNumber (actorSizeVal attackerLabel)
        let upgradeSize := (jsMax targetSize attackerSize).map (fun n => n + 1)
        if blockingLabels.any (fun l => jsGt (sizeToNumber (actorSizeVal l)) upgradeSize) then
          jsAdd (types.filter (fun t => t ≠ les)) std
        else types
      else types
    | _, _ => types

/-- Size rank as the claim words it: the table value for the six size
labels, default medium (3) when the size label is unknown. -/
def specSizeRank (k : String) : Int :=
  if k = "tiny" then 1 else if k = "sm" then 2 else if k = "med" then 3
  else if k = "lg" then 4 else if k = "huge" then 5 else if k = "grg" then 6
  else 3

/-- Size labels that the reverse-mapping pass of ACTOR_SIZES turned into
keys holding size-name strings. -/
def numericSizeKey (k : String) : Bool :=
  k ∈ ["1", "2", "3", "4", "5", "6"]

/-- Pair the flat coordinate array of a host-platform polygon into vertices,
two coordinates at a time (a dangling odd coordinate yields no vertex; the
polygons considered well-formed have an even number of coordinates). -/
def takePairs : List Int → List (Int × Int)
  | x :: y :: rest => (x, y) :: takePairs rest
  | _ => []

/-- Modelled from the spec/host platform: the polygon isClosed getter is true
when the coordinate array has at least four entries and its first coordinate
pair equals its last. -/
def isClosed (pts : List Int) : Bool :=
  decide (4 ≤ pts.length) && (pts.take 2 == pts.drop (pts.length - 2))

/-- iteratePoints of the polygon utilities: drop the final (duplicated)
vertex exactly when the polygon is closed and close is false, then yield the
remaining coordinate pairs in order. -/
def iteratePoints (pts : List Int) (close : Bool) : List (Int × Int) :=
  let dropped := if !isClosed pts || close then 0 else 2
  takePairs (pts.take (pts.length - dropped))

/-- iterateEdges of the polygon utilities: nothing is yielded for a
coordinate array shorter than four entries; otherwise edges join consecutive
vertices (the source computes a dropped/iter count from isClosed but never
uses it for the loop bound, so the loop always runs over the whole array)
and, when close is true, a final last-to-first edge is yielded. -/
def iterateEdges (pts : List Int) (close : Bool) :
    List ((Int × Int) × (Int × Int)) :=
  if pts.length < 4 then []
  else
    let vs := takePairs pts
    let inner := vs.zip vs.tail
    inner ++ (if close then [((vs.getLast?).getD (0, 0), (vs.head?).getD (0, 0))] else [])

/-- Concrete prioritized cover category used in witness instances. -/
def ctP : CoverTypeData := ⟨0, "p", 0, "p", false, some 1, true, true⟩

/-- Concrete non-overlapping unprioritized cover category used in witness
instances. -/
def ctU : CoverTypeData := ⟨1, "u", 0, "u", false, none, true, true⟩

/-- Percent-cover oracle reporting full cover, used in witness instances. -/
def oracleOne : Bool → Bool → Rat := fun _ _ => 1

/-- Concrete dirty catalog state used in witness instances. -/
def catalogW : CatalogState := ⟨[ctP, ctU], true, [], []⟩

/-- Concrete standard-cover category for the pf2e instances. -/
def c5Std : CoverTypeData := ⟨2, "std", 1, "standard", false, none, true, true⟩

/-- Concrete lesser-cover category for the pf2e instances. -/
def c5Les : CoverTypeData := ⟨3, "les", 0, "lesser", false, none, true, true⟩

/-- Concrete overlapping cover category whose icon is y, for the
replaceCoverTypes instances. -/
def c8Cover : CoverTypeData := ⟨4, "cov", 1, "y", true, none, true, true⟩

/-- Concrete geometric collaborators for witness instances: every
intersection is empty and no 2D line intersection is found. -/
def gW : GeomOps := ⟨fun _ _ => ⟨[]⟩, fun _ _ _ => ⟨[]⟩, fun _ _ _ _ => none, fun c => c⟩

/-- Concrete wall with ground segment from the origin to (2,0). -/
def wiW : Wall := ⟨⟨0, 0⟩, ⟨2, 0⟩, ⟨[]⟩⟩

/-- Concrete wall crossing wiW: vertical ground segment through (1,0). -/
def wjW : Wall := ⟨⟨1, -1⟩, ⟨1, 1⟩, ⟨[]⟩⟩

/-- Concrete wall lying entirely on one side of wiW (a T/V configuration). -/
def w2W : Wall := ⟨⟨3, 1⟩, ⟨4, 2⟩, ⟨[]⟩⟩

/-- Concrete viewer location not collinear with any witness wall. -/
def vW : Pt := ⟨0, 5⟩

/-- Unfolding step of the unprioritized loop. -/
theorem unorderedPass_cons (f : CoverTypeData → Bool) (u : CoverTypeData)
    (rest ts : List CoverTypeData) :
    unorderedPass f (u :: rest) ts =
      unorderedPass f rest
        (if !u.canOverlap && (setProp ts lengthKey).truthy then ts
         else if f u then jsAdd ts u else ts) := rfl

/-- Adding an element that fails p leaves the p-count of a JS set
unchanged. -/
theorem jsAdd_countP (p : CoverTypeData → Bool) (ts : List CoverTypeData)
    (u : CoverTypeData) (h : p u = false) :
    (jsAdd ts u).countP p = ts.countP p := by
  unfold jsAdd
  split
  · rfl
  · simp [List.countP_append, List.countP_cons, h]

/-- The unprioritized loop never changes the count of elements satisfying a
predicate that fails on every unprioritized category. -/
theorem unorderedPass_countP (f p : CoverTypeData → Bool) :
    ∀ (l ts : List CoverTypeData), (∀ u ∈ l, p u = false) →
      (unorderedPass f l ts).countP p = ts.countP p := by
  intro l
  induction l with
  | nil => intro ts _; rfl
  | cons u rest ih =>
    intro ts h
    have hu : p u = false := h u (by simp)
    have hrest : ∀ v ∈ rest, p v = false := fun v hv => h v (by simp [hv])
    rw [unorderedPass_cons]
    split_ifs with h1 h2
    · exact ih ts hrest
    · rw [ih _ hrest]; exact jsAdd_countP p ts u hu
    · exact ih ts hrest

/-- The priority loop over a list whose first applying category is t stops
right at t: the set is exactly t and only the miss run and t were tested. -/
theorem orderedPass_break (f : CoverTypeData → Bool) :
    ∀ (l1 : List CoverTypeData) (t : CoverTypeData) (l2 : List CoverTypeData),
      (∀ u ∈ l1, f u = false) → f t = true →
      orderedPass f (l1 ++ t :: l2) = ([t], l1 ++ [t]) := by
  intro l1
  induction l1 with
  | nil => intro t l2 _ ht; simp [orderedPass, ht]
  | cons u rest ih =>
    intro t l2 hm ht
    have hu : f u = false := hm u (by simp)
    have hr := ih t l2 (fun v hv => hm v (by simp [hv])) ht
    simp [orderedPass, hu, hr]

/-- Membership in the rebuilt ordered list: catalog entries with truthy
priority. -/
theorem mem_rebuilt_ordered (s : CatalogState) (t : CoverTypeData) :
    t ∈ (updateCoverTypesOrder s).ordered ↔
      t ∈ s.covers ∧ priorityTruthy t.priority = true := by
  unfold updateCoverTypesOrder
  simp [(List.perm_insertionSort priorGe _).mem_iff, List.mem_filter]

/-- Membership in the rebuilt unordered list: catalog entries with falsy
priority. -/
theorem mem_rebuilt_unordered (s : CatalogState) (t : CoverTypeData) :
    t ∈ (updateCoverTypesOrder s).unordered ↔
      t ∈ s.covers ∧ priorityTruthy t.priority = false := by
  unfold updateCoverTypesOrder
  simp [List.mem_filter]

/-- C1: evaluation of coverTypesForToken at the failing input.  One
prioritized category applies and is added; one non-overlapping unprioritized
category also applies.  The skip guard reads types.length on a JS Set, which
is undefined and hence falsy, so the non-overlapping category is never
skipped even though a result was already added, and the function returns
both categories together — contradicting the source's own comment and the
spec, which require the unprioritized non-overlapping category to be
skipped once any category is in the result. -/
theorem c1_coverTypesForToken_skip_bug_eval :
    coverTypesForToken oracleOne [ctP] [ctU] = [ctP, ctU]
    ∧ ctU.canOverlap = false := by decide

/-- C2: with a freshly rebuilt catalog, the prioritized list read by
coverTypesForToken is sorted descending by priority and is traversed in that
order; when its first applying category is t, exactly the categories up to
and including t are tested (none after t), the set after the prioritized
pass is exactly t, and the final result contains at most one prioritized
category. -/
theorem c2_prioritized_first_match_only
    (pc : Bool → Bool → Rat) (s : CatalogState) (hs : s.modified = true)
    (l1 l2 : List CoverTypeData) (t : CoverTypeData)
    (hord : (coverTypesOrdered s).1 = l1 ++ t :: l2)
    (hmiss : ∀ u ∈ l1, coverTypeApplies pc u = false)
    (hhit : coverTypeApplies pc t = true) :
    List.Sorted priorGe (coverTypesOrdered s).1
    ∧ (orderedPass (coverTypeApplies pc) (coverTypesOrdered s).1).2 = l1 ++ [t]
    ∧ (orderedPass (coverTypeApplies pc) (coverTypesOrdered s).1).1 = [t]
    ∧ (coverTypesForToken pc (coverTypesOrdered s).1 (coverTypesUnordered s).1).countP
        (fun x => decide (x ∈ (coverTypesOrdered s).1)) ≤ 1 := by
  have hOret : (coverTypesOrdered s).1 = (updateCoverTypesOrder s).ordered := by
    simp [coverTypesOrdered, hs]
  have hUret : (coverTypesUnordered s).1 = (updateCoverTypesOrder s).unordered := by
    simp [coverTypesUnordered, hs]
  have hb := orderedPass_break (coverTypeApplies pc) l1 t l2 hmiss hhit
  rw [← hord] at hb
  have hUdis : ∀ u ∈ (coverTypesUnordered s).1,
      (fun x => decide (x ∈ (coverTypesOrdered s).1)) u = false := by
    intro u hu
    rw [hUret, mem_rebuilt_unordered] at hu
    simp only [decide_eq_false_iff_not]
    rw [hOret, mem_rebuilt_ordered]
    rintro ⟨-, htru⟩
    rw [hu.2] at htru
    exact Bool.false_ne_true htru
  refine ⟨?_, ?_, ?_, ?_⟩
  · rw [hOret]
    exact List.sorted_insertionSort priorGe _
  · rw [hb]
  · rw [hb]
  · unfold coverTypesForToken
    rw [hb]
    rw [unorderedPass_countP _ _ _ _ hUdis]
    simp only [List.countP_cons, List.countP_nil]
    split <;> simp

/-- Witness for C2 at a concrete dirty catalog with one prioritized and one
unprioritized category, both applying. -/
theorem c2_witness :
    (orderedPass (coverTypeApplies oracleOne) (coverTypesOrdered catalogW).1).1 = [ctP]
    ∧ (coverTypesForToken oracleOne (coverTypesOrdered catalogW).1
        (coverTypesUnordered catalogW).1).countP
        (fun x => decide (x ∈ (coverTypesOrdered catalogW).1)) ≤ 1 :=
  ⟨(c2_prioritized_first_match_only oracleOne catalogW (by decide) [] [] ctP
      (by decide) (by simp) (by decide)).2.2.1,
   (c2_prioritized_first_match_only oracleOne catalogW (by decide) [] [] ctP
      (by decide) (by simp) (by decide)).2.2.2⟩

/-- C3: every catalog mutation marks the derived-list cache dirty, and the
next read of either derived list fully rebuilds both from the catalog: the
concatenation of the two lists is a permutation of the catalog (no entry
dropped or duplicated), every entry of the ordered list has truthy priority
and the list is sorted descending by priority value, every entry of the
unordered list has falsy priority, both reads rebuild the same state, and
the dirty flag is cleared. -/
theorem c3_catalog_partition_and_dirty (s : CatalogState) (m : CatalogMutation) :
    (applyMutation m s).modified = true
    ∧ ((coverTypesOrdered (applyMutation m s)).1 ++
        (coverTypesUnordered (applyMutation m s)).1).Perm (applyMutation m s).covers
    ∧ (∀ t ∈ (coverTypesOrdered (applyMutation m s)).1, priorityTruthy t.priority = true)
    ∧ (∀ t ∈ (coverTypesUnordered (applyMutation m s)).1, priorityTruthy t.priority = false)
    ∧ List.Sorted priorGe (coverTypesOrdered (applyMutation m s)).1
    ∧ (coverTypesOrdered (applyMutation m s)).2 = updateCoverTypesOrder (applyMutation m s)
    ∧ (coverTypesUnordered (applyMutation m s)).2 = updateCoverTypesOrder (applyMutation m s)
    ∧ ((coverTypesOrdered (applyMutation m s)).2).modified = false := by
  have hm : (applyMutation m s).modified = true := by
    cases m <;> simp [applyMutation, coverTypesUpdated]
  have hro : coverTypesOrdered (applyMutation m s)
      = ((updateCoverTypesOrder (applyMutation m s)).ordered,
         updateCoverTypesOrder (applyMutation m s)) := by
    simp [coverTypesOrdered, hm]
  have hru : coverTypesUnordered (applyMutation m s)
      = ((updateCoverTypesOrder (applyMutation m s)).unordered,
         updateCoverTypesOrder (applyMutation m s)) := by
    simp [coverTypesUnordered, hm]
  refine ⟨hm, ?_, ?_, ?_, ?_, ?_, ?_, ?_⟩
  · rw [hro, hru]
    show ((updateCoverTypesOrder _).ordered ++ (updateCoverTypesOrder _).unordered).Perm _
    unfold updateCoverTypesOrder
    exact ((List.perm_insertionSort priorGe _).append
      (List.Perm.refl _)).trans (List.filter_append_perm _ _)
  · rw [hro]
    intro t ht
    exact ((mem_rebuilt_ordered _ t).mp ht).2
  · rw [hru]
    intro t ht
    exact ((mem_rebuilt_unordered _ t).mp ht).2
  · rw [hro]
    exact List.sorted_insertionSort priorGe _
  · rw [hro]
  · rw [hru]
  · rw [hro]
    rfl

/-- When every pair contributes nothing, the accumulated region is empty and
the combiner returns none. -/
theorem combineFromPairs_none (g : GeomOps) (v : Pt) (pairs : List (Wall × Wall))
    (h : ∀ p ∈ pairs, (processPair g v p.1 p.2).1 = []) :
    (combineFromPairs g v pairs).1 = none := by
  have hc : (((pairResults g v pairs).map (fun r => r.1)).flatten) = [] := by
    rw [List.flatten_eq_nil_iff]
    intro l hl
    rw [List.mem_map] at hl
    obtain ⟨r, hr, rfl⟩ := hl
    rw [pairResults, List.mem_map] at hr
    obtain ⟨p, hp, rfl⟩ := hr
    exact h p hp
  have hc2 : contribPaths g v pairs = [] := by
    rw [contribPaths, hc]
    rfl
  unfold combineFromPairs
  rw [hc2]
  rfl

/-- A pair whose ground segments do not strictly cross, with the viewer
collinear with neither, contributes nothing as soon as the silhouette
intersections in both orders are empty. -/
theorem processPair_noncross (g : GeomOps) (v : Pt) (w1 w2 : Wall)
    (h1 : ccw w1.A w1.B v ≠ 0) (h2 : ccw w2.A w2.B v ≠ 0)
    (hnc : ¬(ccw w1.A w1.B w2.A ≠ ccw w1.A w1.B w2.B ∧ ccw w1.A w1.B w2.A ≠ 0 ∧
        ccw w1.A w1.B w2.B ≠ 0 ∧ ccw w2.A w2.B w1.A ≠ ccw w2.A w2.B w1.B ∧
        ccw w2.A w2.B w1.A ≠ 0 ∧ ccw w2.A w2.B w1.B ≠ 0))
    (hi1 : (g.intersectPaths w1.silh w2.silh).paths = [])
    (hi2 : (g.intersectPaths w2.silh w1.silh).paths = []) :
    (processPair g v w1 w2).1 = [] := by
  have hcf : classifyFront w1 w2 (ccw w1.A w1.B v) (ccw w2.A w2.B v)
      (ccw w1.A w1.B w2.A) (ccw w1.A w1.B w2.B)
      (ccw w2.A w2.B w1.A) (ccw w2.A w2.B w1.B) = some (w2, w1)
      ∨ classifyFront w1 w2 (ccw w1.A w1.B v) (ccw w2.A w2.B v)
      (ccw w1.A w1.B w2.A) (ccw w1.A w1.B w2.B)
      (ccw w2.A w2.B w1.A) (ccw w2.A w2.B w1.B) = some (w1, w2) := by
    unfold classifyFront
    by_cases h4 : ccw w1.A w1.B w2.A = ccw w1.A w1.B w2.B ∨
        ccw w1.A w1.B w2.B = 0 ∨ ccw w1.A w1.B w2.A = 0
    · rw [if_pos h4]
      split_ifs <;> simp
    · rw [if_neg h4]
      by_cases h5 : ccw w2.A w2.B w1.A = ccw w2.A w2.B w1.B ∨
          ccw w2.A w2.B w1.A = 0 ∨ ccw w2.A w2.B w1.B = 0
      · rw [if_pos h5]
        split_ifs <;> simp
      · push_neg at h4 h5
        exact absurd ⟨h4.1, h4.2.2, h4.2.1, h5.1, h5.2.1, h5.2.2⟩ hnc
  unfold processPair
  rw [if_neg h1, if_neg h2]
  by_cases h3 : ccw w1.A w1.B w2.A = 0 ∧ ccw w1.A w1.B w2.B = 0
  · rw [if_pos h3]
  · rw [if_neg h3]
    rcases hcf with hcf | hcf <;> rw [hcf] <;> simp [hi1, hi2]

/-- C4: combineTerrainWalls returns none whenever no pair contributes a
nonempty clipped region; in particular for an empty input, for a single
wall, and for two walls whose ground segments do not strictly cross, whose
silhouettes have empty intersections, and whose segments are not collinear
with the viewer. -/
theorem c4_combineTerrainWalls_none_cases (g : GeomOps) (v : Pt) :
    (∀ walls : List Wall,
        (∀ p ∈ allPairs walls, (processPair g v p.1 p.2).1 = []) →
        (combineTerrainWalls g walls v).1 = none)
    ∧ (combineTerrainWalls g [] v).1 = none
    ∧ (∀ w : Wall, (combineTerrainWalls g [w] v).1 = none)
    ∧ ∀ w1 w2 : Wall,
        ccw w1.A w1.B v ≠ 0 →
        ccw w2.A w2.B v ≠ 0 →
        ¬(ccw w1.A w1.B w2.A ≠ ccw w1.A w1.B w2.B ∧ ccw w1.A w1.B w2.A ≠ 0 ∧
          ccw w1.A w1.B w2.B ≠ 0 ∧ ccw w2.A w2.B w1.A ≠ ccw w2.A w2.B w1.B ∧
          ccw w2.A w2.B w1.A ≠ 0 ∧ ccw w2.A w2.B w1.B ≠ 0) →
        (g.intersectPaths w1.silh w2.silh).paths = [] →
        (g.intersectPaths w2.silh w1.silh).paths = [] →
        (combineTerrainWalls g [w1, w2] v).1 = none := by
  refine ⟨?_, ?_, ?_, ?_⟩
  · intro walls h
    exact combineFromPairs_none g v _ h
  · exact combineFromPairs_none g v _ (by simp [allPairs])
  · intro w
    exact combineFromPairs_none g v _ (by simp [allPairs])
  · intro w1 w2 h1 h2 hnc hi1 hi2
    apply combineFromPairs_none
    intro p hp
    simp only [allPairs, List.map_cons, List.map_nil] at hp
    simp only [List.append_nil, List.mem_cons, List.not_mem_nil, or_false] at hp
    subst hp
    exact processPair_noncross g v w1 w2 h1 h2 hnc hi1 hi2

/-- Witness for C4: two concrete walls in a T/V configuration, empty
silhouette intersections, viewer off both lines. -/
theorem c4_witness : (combineTerrainWalls gW [wiW, w2W] vW).1 = none :=
  (c4_combineTerrainWalls_none_cases gW vW).2.2.2 wiW w2W (by decide) (by decide)
    (by decide) (by decide) (by decide)

/-- The strictly-crossing configuration makes the front/back classification
return none. -/
theorem classifyFront_cross (wi wj : Wall) (ccwABV ccwCDV a b c d : Int)
    (hc1 : a ≠ b) (hc2 : a ≠ 0) (hc3 : b ≠ 0)
    (hc4 : c ≠ d) (hc5 : c ≠ 0) (hc6 : d ≠ 0) :
    classifyFront wi wj ccwABV ccwCDV a b c d = none := by
  unfold classifyFront
  rw [if_neg, if_neg]
  · intro h
    rcases h with h | h | h
    · exact hc4 h
    · exact hc5 h
    · exact hc6 h
  · intro h
    rcases h with h | h | h
    · exact hc1 h
    · exact hc3 h
    · exact hc2 h

/-- C6: a pair classified as strictly crossing whose 2D line intersection
cannot be computed contributes nothing and yields exactly the diagnostic
warning; the combiner is the fold of processPair over all pairs, so removing
such a pair from anywhere in the pair list leaves the combined region
unchanged while the warning is recorded in place, and every other pair is
still processed.  The embedding is total, so no exception is raised. -/
theorem c6_cross_no_intersection_skipped (g : GeomOps) (v : Pt) (wi wj : Wall)
    (h1 : ccw wi.A wi.B v ≠ 0) (h2 : ccw wj.A wj.B v ≠ 0)
    (hc1 : ccw wi.A wi.B wj.A ≠ ccw wi.A wi.B wj.B)
    (hc2 : ccw wi.A wi.B wj.A ≠ 0) (hc3 : ccw wi.A wi.B wj.B ≠ 0)
    (hc4 : ccw wj.A wj.B wi.A ≠ ccw wj.A wj.B wi.B)
    (hc5 : ccw wj.A wj.B wi.A ≠ 0) (hc6 : ccw wj.A wj.B wi.B ≠ 0)
    (hix : g.lineLineIntersection wi.A wi.B wj.A wj.B = none) :
    processPair g v wi wj = ([], [crossWarning])
    ∧ (∀ walls : List Wall,
        combineTerrainWalls g walls v = combineFromPairs g v (allPairs walls))
    ∧ ∀ pre post : List (Wall × Wall),
        (combineFromPairs g v (pre ++ (wi, wj) :: post)).1
          = (combineFromPairs g v (pre ++ post)).1
        ∧ (combineFromPairs g v (pre ++ (wi, wj) :: post)).2
          = (combineFromPairs g v pre).2 ++ crossWarning :: (combineFromPairs g v post).2 := by
  have hpp : processPair g v wi wj = ([], [crossWarning]) := by
    unfold processPair
    rw [if_neg h1, if_neg h2, if_neg (fun h => hc2 h.1)]
    rw [classifyFront_cross wi wj _ _ _ _ _ _ hc1 hc2 hc3 hc4 hc5 hc6]
    unfold handleTerrainWallsCross
    rw [hix]
  have hkey : ∀ pre post : List (Wall × Wall),
      contribPaths g v (pre ++ (wi, wj) :: post) = contribPaths g v (pre ++ post) := by
    intro pre post
    unfold contribPaths pairResults
    simp [List.map_append, List.flatten_append, hpp]
  refine ⟨hpp, fun _ => rfl, ?_⟩
  intro pre post
  constructor
  · unfold combineFromPairs
    rw [hkey pre post]
  · unfold combineFromPairs
    unfold pairResults
    simp [List.map_append, List.flatten_append, hpp]

/-- Witness for C6 at a concrete crossing pair whose line intersection is
reported missing. -/
theorem c6_witness : processPair gW vW wiW wjW = ([], [crossWarning]) :=
  (c6_cross_no_intersection_skipped gW vW wiW wjW (by decide) (by decide) (by decide)
    (by decide) (by decide) (by decide) (by decide) (by decide) rfl).1

/-- The set built by the priority pass is empty or a single category of the
prioritized list. -/
theorem orderedPass_fst (f : CoverTypeData → Bool) :
    ∀ l : List CoverTypeData,
      (orderedPass f l).1 = [] ∨ ∃ t, t ∈ l ∧ (orderedPass f l).1 = [t] := by
  intro l
  induction l with
  | nil => exact Or.inl rfl
  | cons t rest ih =>
    by_cases ht : f t
    · right
      exact ⟨t, by simp, by simp [orderedPass, ht]⟩
    · rcases ih with h | ⟨u, hu, he⟩
      · left
        simp [orderedPass, ht, h]
      · right
        exact ⟨u, by simp [hu], by simp [orderedPass, ht, he]⟩

/-- Membership after a JS Set add. -/
theorem mem_jsAdd [DecidableEq α] (ts : List α) (u x : α) :
    x ∈ jsAdd ts u ↔ x ∈ ts ∨ x = u := by
  unfold jsAdd
  split
  · rename_i h
    constructor
    · exact fun hx => Or.inl hx
    · rintro (hx | rfl)
      · exact hx
      · exact h
  · simp

/-- A JS Set add preserves the no-duplicates invariant. -/
theorem jsAdd_nodup [DecidableEq α] (ts : List α) (u : α) (h : ts.Nodup) :
    (jsAdd ts u).Nodup := by
  unfold jsAdd
  split
  · exact h
  · rename_i hn
    simp_all [List.nodup_append]

/-- The unprioritized pass only appends: the result is the incoming set
followed by some elements of the unprioritized list. -/
theorem unorderedPass_structure (f : CoverTypeData → Bool) :
    ∀ (l ts : List CoverTypeData), ∃ extra,
      unorderedPass f l ts = ts ++ extra ∧ ∀ u ∈ extra, u ∈ l := by
  intro l
  induction l with
  | nil => exact fun ts => ⟨[], by simp [unorderedPass], by simp⟩
  | cons u rest ih =>
    intro ts
    rw [unorderedPass_cons]
    split_ifs with hg ha
    · obtain ⟨extra, he, hm⟩ := ih ts
      exact ⟨extra, he, fun x hx => List.mem_cons_of_mem _ (hm x hx)⟩
    · unfold jsAdd
      split
      · obtain ⟨extra, he, hm⟩ := ih ts
        exact ⟨extra, he, fun x hx => List.mem_cons_of_mem _ (hm x hx)⟩
      · obtain ⟨extra, he, hm⟩ := ih (ts ++ [u])
        refine ⟨u :: extra, by simp [he], ?_⟩
        intro x hx
        rcases List.mem_cons.mp hx with rfl | hx
        · exact List.mem_cons_self _ _
        · exact List.mem_cons_of_mem _ (hm x hx)
    · obtain ⟨extra, he, hm⟩ := ih ts
      exact ⟨extra, he, fun x hx => List.mem_cons_of_mem _ (hm x hx)⟩

/-- The unprioritized pass preserves the no-duplicates invariant of the
accumulating JS Set. -/
theorem unorderedPass_nodup (f : CoverTypeData → Bool) :
    ∀ (l ts : List CoverTypeData), ts.Nodup → (unorderedPass f l ts).Nodup := by
  intro l
  induction l with
  | nil => exact fun ts h => h
  | cons u rest ih =>
    intro ts h
    rw [unorderedPass_cons]
    split_ifs with hg ha
    · exact ih ts h
    · exact ih _ (jsAdd_nodup ts u h)
    · exact ih ts h

/-- Folding JS Set add over fresh, duplicate-free elements appends them. -/
theorem foldl_jsAdd_eq [DecidableEq α] :
    ∀ (us acc : List α), us.Nodup → (∀ u ∈ us, u ∉ acc) →
      us.foldl jsAdd acc = acc ++ us := by
  intro us
  induction us with
  | nil => intro acc _ _; simp
  | cons u rest ih =>
    intro acc hnd hfresh
    have hu : u ∉ acc := hfresh u (by simp)
    have h1 : jsAdd acc u = acc ++ [u] := by
      unfold jsAdd
      rw [if_neg hu]
    rw [List.foldl_cons, h1, ih (acc ++ [u]) hnd.of_cons]
    · simp
    · intro v hv
      rw [List.mem_append]
      rintro (hva | hvu)
      · exact hfresh v (by simp [hv]) hva
      · rw [List.mem_singleton] at hvu
        subst hvu
        exact (List.nodup_cons.mp hnd).1 hv

/-- Folding the minimum-priority step over falsy-priority categories leaves
the running minimum unchanged and collects the categories. -/
theorem minFold_falsy :
    ∀ (us : List CoverTypeData) (mc : Option CoverTypeData)
      (acc : List CoverTypeData),
      (∀ u ∈ us, priorityTruthy u.priority = false) →
      us.foldl minStepInner (mc, acc) = (mc, us.foldl jsAdd acc) := by
  intro us
  induction us with
  | nil => intro mc acc _; rfl
  | cons u rest ih =>
    intro mc acc h
    have hu : priorityTruthy u.priority = false := h u (by simp)
    have hstep : minStepInner (mc, acc) u = (mc, jsAdd acc u) := by
      simp [minStepInner, hu]
    rw [List.foldl_cons, hstep, ih _ _ (fun v hv => h v (by simp [hv])), List.foldl_cons]

/-- Structure of a coverTypesForToken result: an optional single prioritized
category followed by some unprioritized categories, without duplicates. -/
theorem coverTypesForToken_structure (pc : Bool → Bool → Rat)
    (ordered unordered : List CoverTypeData) :
    ∃ pPart us, coverTypesForToken pc ordered unordered = pPart ++ us
      ∧ (pPart = [] ∨ ∃ p, p ∈ ordered ∧ pPart = [p])
      ∧ (∀ u ∈ us, u ∈ unordered)
      ∧ (coverTypesForToken pc ordered unordered).Nodup := by
  obtain ⟨extra, he, hm⟩ :=
    unorderedPass_structure (coverTypeApplies pc) unordered
      (orderedPass (coverTypeApplies pc) ordered).1
  refine ⟨(orderedPass (coverTypeApplies pc) ordered).1, extra, he, ?_, hm, ?_⟩
  · exact orderedPass_fst (coverTypeApplies pc) ordered
  · apply unorderedPass_nodup
    rcases orderedPass_fst (coverTypeApplies pc) ordered with h | ⟨t, -, h⟩ <;>
      simp [h]

/-- C7: minimumCoverFromAttackers returns the empty set for an empty
attacker list, and for a single attacker it returns exactly that attacker's
coverTypesForToken result, whenever the prioritized and unprioritized
catalog lists respect the priority-truthiness partition. -/
theorem c7_minimumCover_empty_and_single (pc : Bool → Bool → Rat)
    (ordered unordered : List CoverTypeData)
    (hord : ∀ t ∈ ordered, priorityTruthy t.priority = true)
    (hun : ∀ t ∈ unordered, priorityTruthy t.priority = false) :
    minimumCoverFromAttackers
        (fun _ : Unit => coverTypesForToken pc ordered unordered) [] = some []
    ∧ minimumCoverFromAttackers
        (fun _ : Unit => coverTypesForToken pc ordered unordered) [()]
        = some (coverTypesForToken pc ordered unordered) := by
  refine ⟨rfl, ?_⟩
  obtain ⟨pPart, us, hS, hP, hus, hnd⟩ :=
    coverTypesForToken_structure pc ordered unordered
  have husf : ∀ u ∈ us, priorityTruthy u.priority = false :=
    fun u hu => hun u (hus u hu)
  have hShape : minimumCoverFromAttackers
      (fun _ : Unit => coverTypesForToken pc ordered unordered) [()]
      = some (jsUnion
          (match (minAttackerFold none (coverTypesForToken pc ordered unordered)).1 with
            | none => []
            | some m => [m])
          (minAttackerFold none (coverTypesForToken pc ordered unordered)).2) := by
    rfl
  rcases hP with rfl | ⟨p, hpord, rfl⟩
  · rw [List.nil_append] at hS
    have hf : minAttackerFold none (coverTypesForToken pc ordered unordered)
        = (none, us) := by
      unfold minAttackerFold
      rw [hS, minFold_falsy us none [] husf, foldl_jsAdd_eq us [] (hS ▸ hnd) (by simp)]
      rfl
    rw [hShape, hf]
    show some (jsUnion [] us) = _
    unfold jsUnion
    rw [hS]
    simp
  · have hptr : priorityTruthy p.priority = true := hord p hpord
    have hnd2 : (p :: us).Nodup := by
      rw [hS] at hnd
      simpa using hnd
    have hpus : p ∉ us := (List.nodup_cons.mp hnd2).1
    have hf : minAttackerFold none (coverTypesForToken pc ordered unordered)
        = (some p, us) := by
      unfold minAttackerFold
      rw [hS]
      show List.foldl minStepInner (none, []) (p :: us) = _
      rw [List.foldl_cons]
      have h1 : minStepInner (none, []) p = (some p, []) := by
        simp [minStepInner, hptr]
      rw [h1, minFold_falsy us (some p) [] husf,
        foldl_jsAdd_eq us [] hnd2.of_cons (by simp)]
      simp
    rw [hShape, hf]
    show some (jsUnion [p] us) = _
    unfold jsUnion
    rw [hS]
    have : us.filter (fun x => decide (x ∉ [p])) = us := by
      rw [List.filter_eq_self]
      intro u hu
      simp only [List.mem_singleton, decide_eq_true_eq]
      rintro rfl
      exact hpus hu
    simp only [this]

/-- Witness for C7 at a concrete catalog with one prioritized and one
unprioritized category. -/
theorem c7_witness :
    minimumCoverFromAttackers (fun _ : Unit => coverTypesForToken oracleOne [ctP] [ctU]) []
      = some []
    ∧ minimumCoverFromAttackers (fun _ : Unit => coverTypesForToken oracleOne [ctP] [ctU]) [()]
      = some (coverTypesForToken oracleOne [ctP] [ctU]) :=
  c7_minimumCover_empty_and_single oracleOne [ctP] [ctU] (by decide) (by decide)

/-- For labels other than the numeric strings 1..6, the source's size lookup
with its medium default agrees with the rank the claim describes. -/
theorem size_resolves (k : String) (h : numericSizeKey k = false) :
    sizeToNumber (actorSizeVal k) = some (specSizeRank k) := by
  have h6 : k ≠ "1" ∧ k ≠ "2" ∧ k ≠ "3" ∧ k ≠ "4" ∧ k ≠ "5" ∧ k ≠ "6" := by
    unfold numericSizeKey at h
    simpa using h
  obtain ⟨h1, h2, h3, h4, h5, h6⟩ := h6
  unfold actorSizeVal actorSizes specSizeRank
  split_ifs <;> simp_all [sizeToNumber]

/-- C5 counterexample: the claim holds the blocking size label 1 to be
unknown, hence of default rank medium (3), which is two steps above two tiny
tokens (rank 1), so the claim demands an upgrade of lesser to standard
cover; but the source's reverse size mapping sends the key 1 to the string
tiny, whose numeric comparison with the upgrade threshold is false, so the
code leaves the lesser cover in place and never adds standard cover. -/
theorem c5_counterexample :
    specSizeRank ("1") = 3
    ∧ max (specSizeRank ("tiny")) (specSizeRank ("tiny")) + 2 ≤ specSizeRank ("1")
    ∧ pf2eCoverTypesPostProcess (some c5Std) (some c5Les) ("tiny") ("tiny") ["1"] [c5Les]
      = [c5Les]
    ∧ c5Std ∉ pf2eCoverTypesPostProcess (some c5Std) (some c5Les) ("tiny") ("tiny") ["1"] [c5Les] := by
  decide

/-- C5 amended: when the blocking token's size label resolves to a rank (it
is not one of the numeric strings 1..6 created by the reverse mapping, so
the table value applies for the six size labels and medium is the default
otherwise), the attacker and target labels likewise resolve, and the
resolved blocking rank is at least two steps above the larger of the
attacker and target ranks, then lesser cover is removed from the result and
standard cover added in its place, everything else unchanged. -/
theorem c5_amended_upgrade (std les : CoverTypeData) (types : List CoverTypeData)
    (targetLabel attackerLabel b : String) (blockingLabels : List String)
    (hne : std ≠ les)
    (ht : numericSizeKey targetLabel = false)
    (ha : numericSizeKey attackerLabel = false)
    (hb : b ∈ blockingLabels)
    (hbn : numericSizeKey b = false)
    (hsize : max (specSizeRank targetLabel) (specSizeRank attackerLabel) + 2
      ≤ specSizeRank b)
    (hles : les ∈ types) :
    les ∉ pf2eCoverTypesPostProcess (some std) (some les) targetLabel attackerLabel
        blockingLabels types
    ∧ std ∈ pf2eCoverTypesPostProcess (some std) (some les) targetLabel attackerLabel
        blockingLabels types
    ∧ ∀ x, x ∈ pf2eCoverTypesPostProcess (some std) (some les) targetLabel attackerLabel
        blockingLabels types ↔ (x ∈ types ∧ x ≠ les) ∨ x = std := by
  have hany : blockingLabels.any (fun l => jsGt (sizeToNumber (actorSizeVal l))
      ((jsMax (sizeToNumber (actorSizeVal targetLabel))
        (sizeToNumber (actorSizeVal attackerLabel))).map (fun n => n + 1))) = true := by
    rw [List.any_eq_true]
    refine ⟨b, hb, ?_⟩
    rw [size_resolves b hbn, size_resolves targetLabel ht, size_resolves attackerLabel ha]
    simp only [jsMax, Option.map_some', jsGt, decide_eq_true_eq]
    omega
  have hres : pf2eCoverTypesPostProcess (some std) (some les) targetLabel attackerLabel
      blockingLabels types = jsAdd (types.filter (fun t => t ≠ les)) std := by
    unfold pf2eCoverTypesPostProcess
    rw [if_neg (by simp [List.isEmpty_iff, List.ne_nil_of_mem hles])]
    show (if les ∈ types then _ else types) = _
    rw [if_pos hles]
    show (if blockingLabels.any _ then jsAdd (types.filter (fun t => t ≠ les)) std
      else types) = _
    rw [if_pos hany]
  rw [hres]
  refine ⟨?_, ?_, ?_⟩
  · rw [mem_jsAdd]
    rintro (hmem | rfl)
    · have := (List.mem_filter.mp hmem).2
      simp at this
    · exact hne rfl
  · rw [mem_jsAdd]
    exact Or.inr rfl
  · intro x
    rw [mem_jsAdd, List.mem_filter]
    simp

/-- Witness for C5 amended: a huge blocking token, tiny target, small
attacker; the concrete run removes lesser cover and adds standard cover. -/
theorem c5_witness :
    c5Les ∉ pf2eCoverTypesPostProcess (some c5Std) (some c5Les) ("tiny") ("sm")
        ["huge"] [c5Les]
    ∧ c5Std ∈ pf2eCoverTypesPostProcess (some c5Std) (some c5Les) ("tiny") ("sm")
        ["huge"] [c5Les] :=
  ⟨(c5_amended_upgrade c5Std c5Les [c5Les] ("tiny") ("sm") ("huge") ["huge"]
      (by decide) (by decide) (by decide) (by decide) (by decide) (by decide)
      (by decide)).1,
   (c5_amended_upgrade c5Std c5Les [c5Les] ("tiny") ("sm") ("huge") ["huge"]
      (by decide) (by decide) (by decide) (by decide) (by decide) (by decide)
      (by decide)).2.1⟩

/-- Membership in a fold of JS Set adds. -/
theorem mem_foldl_jsAdd [DecidableEq α] :
    ∀ (l s : List α) (x : α), x ∈ l.foldl jsAdd s ↔ x ∈ s ∨ x ∈ l := by
  intro l
  induction l with
  | nil => intro s x; simp
  | cons a rest ih =>
    intro s x
    rw [List.foldl_cons, ih, mem_jsAdd]
    constructor
    · rintro ((hx | rfl) | hx)
      · exact Or.inl hx
      · exact Or.inr (by simp)
      · exact Or.inr (by simp [hx])
    · rintro (hx | hx)
      · exact Or.inl (Or.inl hx)
      · rcases List.mem_cons.mp hx with rfl | hx
        · exact Or.inl (Or.inr rfl)
        · exact Or.inr hx

/-- Membership in a fold of JS Set adds of mapped values. -/
theorem mem_foldl_jsAdd_map [DecidableEq β] (f : α → β) :
    ∀ (l : List α) (s : List β) (x : β),
      x ∈ l.foldl (fun acc a => jsAdd acc (f a)) s ↔ x ∈ s ∨ ∃ a ∈ l, f a = x := by
  intro l
  induction l with
  | nil => intro s x; simp
  | cons a rest ih =>
    intro s x
    rw [List.foldl_cons, ih, mem_jsAdd]
    constructor
    · rintro ((hx | rfl) | ⟨b, hb, rfl⟩)
      · exact Or.inl hx
      · exact Or.inr ⟨a, by simp, rfl⟩
      · exact Or.inr ⟨b, by simp [hb], rfl⟩
    · rintro (hx | ⟨b, hb, rfl⟩)
      · exact Or.inl (Or.inl hx)
      · rcases List.mem_cons.mp hb with rfl | hb
        · exact Or.inl (Or.inr rfl)
        · exact Or.inr ⟨b, hb, rfl⟩

/-- Membership in the coverSet is membership in the desired list. -/
theorem mem_coverSet (ctl : List CoverTypeData) (x : CoverTypeData) :
    x ∈ coverSet ctl ↔ x ∈ ctl := by
  unfold coverSet
  rw [mem_foldl_jsAdd]
  simp

/-- Membership in the token icon set is membership in the effect list. -/
theorem mem_tokenIconSet (effects : List String) (x : String) :
    x ∈ tokenIconSet effects ↔ x ∈ effects := by
  unfold tokenIconSet
  rw [mem_foldl_jsAdd]
  simp

/-- Membership in the kept icons is being the icon of a desired type. -/
theorem mem_keepIcons (ctl : List CoverTypeData) (x : String) :
    x ∈ keepIcons ctl ↔ ∃ ct ∈ ctl, ct.icon = x := by
  unfold keepIcons
  rw [mem_foldl_jsAdd_map]
  simp only [List.not_mem_nil, false_or]
  constructor
  · rintro ⟨a, ha, rfl⟩
    exact ⟨a, (mem_coverSet ctl a).mp ha, rfl⟩
  · rintro ⟨a, ha, rfl⟩
    exact ⟨a, (mem_coverSet ctl a).mpr ha, rfl⟩

/-- The removal loop of addToToken only drops icons. -/
theorem removeOthersFold_subset :
    ∀ (others : List CoverTypeData) (snapshot effects : List String),
      ∀ e ∈ removeOthersFold others snapshot effects, e ∈ effects := by
  intro others
  induction others with
  | nil => intro snapshot effects e he; exact he
  | cons o rest ih =>
    intro snapshot effects e he
    rw [removeOthersFold] at he
    rw [List.foldl_cons] at he
    split_ifs at he with hs
    · have := ih snapshot _ e he
      unfold removeFromToken at this
      split_ifs at this with hmem
      · exact (List.mem_filter.mp this).1
      · exact this
    · exact ih snapshot effects e he

/-- addToToken can only keep existing icons or add this type's icon. -/
theorem addToToken_subset (allCoverTypes : List CoverTypeData) (ct : CoverTypeData)
    (effects : List String) :
    ∀ e ∈ (addToToken allCoverTypes ct effects).1, e ∈ effects ∨ e = ct.icon := by
  intro e he
  unfold addToToken at he
  split_ifs at he with h1 h2
  · exact Or.inl he
  · rcases List.mem_append.mp he with he | he
    · exact Or.inl he
    · exact Or.inr (List.mem_singleton.mp he)
  · rcases List.mem_append.mp he with he | he
    · exact Or.inl (removeOthersFold_subset _ _ _ e he)
    · exact Or.inr (List.mem_singleton.mp he)

/-- The add loop of replaceCoverTypes can only keep existing icons or add
icons of the desired types. -/
theorem addAllCoverTypes_subset (allCoverTypes : List CoverTypeData) :
    ∀ (cts : List CoverTypeData) (eff : List String) (flag : Bool),
      ∀ e ∈ (addAllCoverTypes allCoverTypes cts (eff, flag)).1,
        e ∈ eff ∨ ∃ ct ∈ cts, ct.icon = e := by
  intro cts
  induction cts with
  | nil => intro eff flag e he; exact Or.inl he
  | cons ct rest ih =>
    intro eff flag e he
    rw [addAllCoverTypes] at he
    rw [List.foldl_cons] at he
    have he2 := ih (addToToken allCoverTypes ct eff).1 _ e he
    rcases he2 with he2 | ⟨u, hu, rfl⟩
    · rcases addToToken_subset allCoverTypes ct eff e he2 with h | rfl
      · exact Or.inl h
      · exact Or.inr ⟨ct, by simp, rfl⟩
    · exact Or.inr ⟨u, by simp [hu], rfl⟩

/-- When every desired icon is already present, the add loop is the
identity. -/
theorem addAllCoverTypes_id (allCoverTypes : List CoverTypeData) :
    ∀ (cts : List CoverTypeData) (eff : List String) (flag : Bool),
      (∀ ct ∈ cts, ct.icon ∈ eff) →
      addAllCoverTypes allCoverTypes cts (eff, flag) = (eff, flag) := by
  intro cts
  induction cts with
  | nil => intro eff flag _; rfl
  | cons ct rest ih =>
    intro eff flag h
    have hct : ct.icon ∈ eff := h ct (by simp)
    have hstep : addToToken allCoverTypes ct eff = (eff, false) := by
      unfold addToToken
      rw [if_pos hct]
    rw [addAllCoverTypes, List.foldl_cons, hstep]
    show addAllCoverTypes allCoverTypes rest (eff, flag || false) = _
    rw [Bool.or_false]
    exact ih eff flag (fun u hu => h u (by simp [hu]))

/-- An effect icon that survives the removal test is a kept icon. -/
theorem effect_in_keep (effects : List String) (ctl : List CoverTypeData)
    (e : String) (h1 : e ∈ effects) (h2 : e ∉ removeIcons effects ctl) :
    e ∈ keepIcons ctl := by
  by_contra hk
  apply h2
  unfold removeIcons
  rw [List.mem_filter]
  exact ⟨(mem_tokenIconSet effects e).mpr h1, by simpa using hk⟩

/-- C8 counterexample: the token carries the icon x, which belongs to no
cover category, together with the desired category's icon y, so its assigned
cover icons already equal the desired set; the claim then requires a no-op
returning false that leaves x untouched, but the code splices x out and
returns a truthy change flag. -/
theorem c8_counterexample :
    replaceCoverTypes [c8Cover] ["x", "y"] [c8Cover] = (["y"], true)
    ∧ ("x") ∉ [c8Cover].map (fun ct => ct.icon)
    ∧ (["x", "y"].filter (fun e => e ∈ [c8Cover].map (fun ct => ct.icon))) = ["y"] := by
  decide

/-- C8 amended: replaceCoverTypes keeps only icons of the desired cover
categories — any other effect icon, including icons belonging to no cover
category, is removed — and it is idempotent in the stronger sense that when
the token's whole effect-icon set already equals the desired categories'
icon set, the effect list is returned unchanged with a falsy change flag. -/
theorem c8_amended_reconcile (allCoverTypes coverTypesList : List CoverTypeData)
    (effects : List String) :
    (∀ e ∈ (replaceCoverTypes allCoverTypes effects coverTypesList).1,
        e ∈ coverTypesList.map (fun ct => ct.icon))
    ∧ ((∀ e ∈ effects, e ∈ coverTypesList.map (fun ct => ct.icon)) →
       (∀ ct ∈ coverTypesList, ct.icon ∈ effects) →
       replaceCoverTypes allCoverTypes effects coverTypesList = (effects, false)) := by
  constructor
  · by_cases hCT : (coverSet coverTypesList).isEmpty = true
    · unfold replaceCoverTypes
      rw [if_pos hCT]
      split_ifs with he
      · rw [List.isEmpty_iff] at he
        simp [he]
      · simp
    · unfold replaceCoverTypes
      rw [if_neg hCT]
      intro e he
      rcases addAllCoverTypes_subset allCoverTypes _ _ _ e he with he2 | ⟨ct, hct, rfl⟩
      · have hkeep : e ∈ keepIcons coverTypesList := by
          unfold strippedEffects at he2
          split_ifs at he2 with hch
          · have := List.mem_filter.mp he2
            exact effect_in_keep effects coverTypesList e this.1 (by simpa using this.2)
          · have hrem : removeIcons effects coverTypesList = [] := by
              rcases h : removeIcons effects coverTypesList with _ | ⟨a, rest⟩
              · rfl
              · rw [h] at hch
                simp at hch
            exact effect_in_keep effects coverTypesList e he2 (by simp [hrem])
        obtain ⟨ct, hct, rfl⟩ := (mem_keepIcons coverTypesList e).mp hkeep
        exact List.mem_map.mpr ⟨ct, hct, rfl⟩
      · exact List.mem_map.mpr ⟨ct, (mem_coverSet coverTypesList ct).mp hct, rfl⟩
  · intro hsub hsup
    by_cases hCT : (coverSet coverTypesList).isEmpty = true
    · have heff : effects = [] := by
        rw [List.eq_nil_iff_forall_not_mem]
        intro e he
        obtain ⟨ct, hct, rfl⟩ := List.mem_map.mp (hsub e he)
        have hmem : ct ∈ coverSet coverTypesList :=
          (mem_coverSet coverTypesList ct).mpr hct
        rw [List.isEmpty_iff] at hCT
        rw [hCT] at hmem
        simp at hmem
      unfold replaceCoverTypes
      rw [if_pos hCT, if_pos (by simp [heff])]
    · have hrem : removeIcons effects coverTypesList = [] := by
        unfold removeIcons
        rw [List.filter_eq_nil_iff]
        intro e he
        rw [mem_tokenIconSet] at he
        obtain ⟨ct, hct, rfl⟩ := List.mem_map.mp (hsub e he)
        simp only [decide_eq_true_eq, Decidable.not_not]
        exact (mem_keepIcons coverTypesList ct.icon).mpr ⟨ct, hct, rfl⟩
      have hstrip : strippedEffects effects coverTypesList = effects := by
        unfold strippedEffects
        rw [hrem]
        rfl
      have hadd := addAllCoverTypes_id allCoverTypes (coverSet coverTypesList) effects false
        (fun ct hct => hsup ct ((mem_coverSet coverTypesList ct).mp hct))
      unfold replaceCoverTypes
      rw [if_neg hCT, hstrip, hadd, hrem]
      simp

/-- Witness for C8 amended at a token already carrying exactly the desired
icon. -/
theorem c8_witness :
    replaceCoverTypes [c8Cover] ["y"] [c8Cover] = (["y"], false) :=
  (c8_amended_reconcile [c8Cover] [c8Cover] ["y"]).2 (by decide) (by decide)

/-- Induction on a flat coordinate list two entries at a time. -/
theorem twoStepInduction {motive : List Int → Prop} (h0 : motive [])
    (h1 : ∀ a, motive [a])
    (h2 : ∀ a b l, motive l → motive (a :: b :: l)) : ∀ l, motive l
  | [] => h0
  | [a] => h1 a
  | a :: b :: l => h2 a b l (twoStepInduction h0 h1 h2 l)

/-- Appending one coordinate pair to an even-length flat list appends one
vertex. -/
theorem takePairs_append_pair :
    ∀ (mid : List Int), 2 ∣ mid.length → ∀ x y : Int,
      takePairs (mid ++ [x, y]) = takePairs mid ++ [(x, y)] := by
  intro mid
  induction mid using twoStepInduction with
  | h0 => intro _ x y; rfl
  | h1 a => intro h x y; simp at h
  | h2 a b l ih =>
    intro h x y
    have hl : 2 ∣ l.length := by simp at h; omega
    show (a, b) :: takePairs (l ++ [x, y]) = (a, b) :: takePairs l ++ [(x, y)]
    rw [ih hl x y]
    rfl

/-- C9 counterexample: on a concrete closed triangle, the close=true point
sequence followed by re-closing (appending the first point) has one vertex
more than the original vertex sequence, so the claimed round trip fails. -/
theorem c9_counterexample :
    iteratePoints [0, 0, 1, 0, 0, 1, 0, 0] true ++ [(0, 0)]
      ≠ takePairs [0, 0, 1, 0, 0, 1, 0, 0]
    ∧ (iteratePoints [0, 0, 1, 0, 0, 1, 0, 0] true).head? = some (0, 0)
    ∧ isClosed [0, 0, 1, 0, 0, 1, 0, 0] = true := by decide

/-- C9 amended: for a closed polygon (even-length coordinate array), the
close=true sequence is already the original vertex sequence with no
re-closing needed; re-closing by appending the first vertex reproduces the
original from the close=false sequence; and close=false drops exactly the
duplicated closing vertex. -/
theorem c9_amended_roundtrip (pts : List Int) (heven : 2 ∣ pts.length)
    (hcl : isClosed pts = true) :
    iteratePoints pts true = takePairs pts
    ∧ iteratePoints pts false ++ (takePairs pts).take 1 = takePairs pts
    ∧ iteratePoints pts false = (takePairs pts).dropLast := by
  have hcl0 := hcl
  unfold isClosed at hcl
  rw [Bool.and_eq_true, decide_eq_true_eq] at hcl
  have h4 : 4 ≤ pts.length := hcl.1
  have heq : pts.take 2 = pts.drop (pts.length - 2) := eq_of_beq hcl.2
  obtain ⟨a, b, rest, rfl⟩ : ∃ a b rest, pts = a :: b :: rest := by
    rcases pts with _ | ⟨a, _ | ⟨b, rest⟩⟩
    · simp at h4
    · simp at h4
    · exact ⟨a, b, rest, rfl⟩
  have hrl : 2 ≤ rest.length := by
    simp at h4
    omega
  have hab : rest.drop (rest.length - 2) = [a, b] := by
    have h1 : (a :: b :: rest).length - 2 = 2 + (rest.length - 2) := by
      simp
      omega
    rw [h1, ← List.drop_drop] at heq
    exact heq.symm
  obtain ⟨mid, hmidlen, rfl⟩ : ∃ mid, 2 ∣ mid.length ∧ rest = mid ++ [a, b] := by
    refine ⟨rest.take (rest.length - 2), ?_, ?_⟩
    · have hlt : (rest.take (rest.length - 2)).length = rest.length - 2 := by
        simp [List.length_take]
      simp only [List.length_cons] at heven
      omega
    · conv_lhs => rw [← List.take_append_drop (rest.length - 2) rest]
      rw [hab]
  have hTP : takePairs (a :: b :: (mid ++ [a, b]))
      = (a, b) :: (takePairs mid ++ [(a, b)]) := by
    show (a, b) :: takePairs (mid ++ [a, b]) = _
    rw [takePairs_append_pair mid hmidlen a b]
  have hIPfalse : iteratePoints (a :: b :: (mid ++ [a, b])) false
      = (a, b) :: takePairs mid := by
    unfold iteratePoints
    rw [hcl0]
    show takePairs ((a :: b :: (mid ++ [a, b])).take
      ((a :: b :: (mid ++ [a, b])).length - 2)) = _
    have hlen2 : (a :: b :: (mid ++ [a, b])).length - 2 = mid.length + 2 := by
      simp
    rw [hlen2]
    show takePairs (a :: b :: (mid ++ [a, b]).take mid.length) = _
    rw [List.take_append_of_le_length (le_refl mid.length), List.take_length]
    rfl
  refine ⟨?_, ?_, ?_⟩
  · unfold iteratePoints
    rw [Bool.or_true]
    simp
    rw [List.take_of_length_le (by simp)]
  · rw [hIPfalse, hTP]
    rfl
  · rw [hIPfalse, hTP]
    rw [show (a, b) :: (takePairs mid ++ [(a, b)])
      = ((a, b) :: takePairs mid) ++ [(a, b)] from rfl]
    rw [List.dropLast_concat]


/-- Witness for C9 amended at a concrete closed square. -/
theorem c9_witness :
    iteratePoints [0, 0, 2, 0, 2, 2, 0, 0] true = takePairs [0, 0, 2, 0, 2, 2, 0, 0]
    ∧ iteratePoints [0, 0, 2, 0, 2, 2, 0, 0] false
        = (takePairs [0, 0, 2, 0, 2, 2, 0, 0]).dropLast :=
  ⟨(c9_amended_roundtrip [0, 0, 2, 0, 2, 2, 0, 0] (by decide) (by decide)).1,
   (c9_amended_roundtrip [0, 0, 2, 0, 2, 2, 0, 0] (by decide) (by decide)).2.2⟩

/-- C10: a coordinate array with fewer than four entries (fewer than two
vertices) yields no edges at all, for either close setting. -/
theorem c10_iterateEdges_short_empty (pts : List Int) (close : Bool)
    (h : pts.length < 4) : iterateEdges pts close = [] := by
  unfold iterateEdges
  rw [if_pos h]

/-- Witness for C10 at concrete degenerate polygons. -/
theorem c10_witness :
    iterateEdges [0, 0, 1] true = [] ∧ iterateEdges [0, 0] false = [] :=
  ⟨c10_iterateEdges_short_empty [0, 0, 1] true (by decide),
   c10_iterateEdges_short_empty [0, 0] false (by decide)⟩
